import Mathlib

/-!
Shallow embedding of the clipboard engine in `file_operations.py`
(class `FileOperations`): staging (`copy`, `cut`), clipboard state,
conflict resolution (`_ask_conflict_resolution`, `_get_unique_name`)
and materialization (`paste`), together with theorems checking the
specification's claims against it.

Paths are modelled as lists of components (absolute paths); the
filesystem as a finite list of existing paths, each tagged with
whether it is a directory.  External inputs — user keystrokes at the
conflict prompt and the success or failure of each OS-level transfer —
are modelled as explicit event lists, so every run of the embedded
code is a pure function of its inputs.
-/

namespace FileOps

/-- Embedding of `OperationType` (file_operations.py lines 28-31). -/
inductive OperationType where
  | COPY
  | CUT
  deriving DecidableEq, Repr

/-- Embedding of `ConflictAction` (file_operations.py lines 34-38). -/
inductive ConflictAction where
  | REPLACE
  | KEEP_BOTH
  | SKIP
  deriving DecidableEq, Repr

/-- An absolute path, as its list of components. -/
abbrev Path := List String

/-- Base name of a path: its last component (`Path.name` in pathlib). -/
def Path.name (p : Path) : String := p.getLastD ""

/-- An input path string, as handed to `copy`/`cut`: either already
absolute or relative to the current working directory. -/
structure InputPath where
  isAbsolute : Bool
  components : List String
  deriving DecidableEq, Repr

/-- Embedding of `Path.absolute()`: a relative path is resolved against
the current working directory, an absolute one is kept. -/
def absolute (cwd : Path) (p : InputPath) : Path :=
  if p.isAbsolute then p.components else cwd ++ p.components

/-- The host filesystem, as the finite list of existing paths, each
tagged with whether it is a directory. -/
structure FS where
  entries : List (Path × Bool)
  deriving DecidableEq, Repr

/-- Embedding of `Path.exists()` against the modelled filesystem. -/
def FS.existsPath (fs : FS) (p : Path) : Bool :=
  fs.entries.any (fun e => e.1 == p)

/-- Embedding of `Path.is_dir()` against the modelled filesystem. -/
def FS.is_dir (fs : FS) (p : Path) : Bool :=
  fs.entries.any (fun e => e.1 == p && e.2)

/-- Embedding of `shutil.rmtree`: removes a path and everything below it. -/
def FS.removeTree (fs : FS) (p : Path) : FS :=
  ⟨fs.entries.filter (fun e => !(p.isPrefixOf e.1))⟩

/-- Embedding of `Path.unlink`: removes a single (file) entry. -/
def FS.removeFile (fs : FS) (p : Path) : FS :=
  ⟨fs.entries.filter (fun e => !(e.1 == p))⟩

/-- Embedding of `shutil.copytree`: every entry at or below `src` gets a
copy re-rooted at `dst`. -/
def FS.copyTree (fs : FS) (src dst : Path) : FS :=
  ⟨fs.entries ++ fs.entries.filterMap (fun e =>
    if src.isPrefixOf e.1 then some (dst ++ e.1.drop src.length, e.2) else none)⟩

/-- Embedding of `FileOperations._copy_item` (lines 215-236): a directory
is copied recursively via `copytree`, a regular file via `copy2`. -/
def copy_item (fs : FS) (source destination : Path) : FS :=
  if fs.is_dir source then fs.copyTree source destination
  else ⟨fs.entries ++ [(destination, false)]⟩

/-- Embedding of `FileOperations._move_item` (lines 238-256):
`shutil.move` places the tree at the destination and removes the source. -/
def move_item (fs : FS) (source destination : Path) : FS :=
  (fs.copyTree source destination).removeTree source

/-- Embedding of the clipboard state set up in `FileOperations.__init__`
(lines 51-54): the staged paths and the operation type, `none`
standing for Python's `None` (the EMPTY intent). -/
structure ClipState where
  clipboard : List Path
  operation_type : Option OperationType
  deriving DecidableEq, Repr

/-- The state after `__init__`: empty clipboard, no operation type. -/
def init_state : ClipState := ⟨[], none⟩

/-- The validation loop shared by `copy` (lines 67-74) and `cut`
(lines 101-108): each path must exist, else the whole call fails
(`none`); on success the absolute forms are collected in order. -/
def validate_paths (cwd : Path) (fs : FS) : List InputPath → Option (List Path)
  | [] => some []
  | p :: rest =>
    if fs.existsPath (absolute cwd p) then
      (validate_paths cwd fs rest).map (fun v => absolute cwd p :: v)
    else
      none

/-- Embedding of `FileOperations.copy` (lines 56-88): validate every
path, then replace the clipboard wholesale and set the COPY intent;
returns the new state and the boolean the Python method returns. -/
def copy (st : ClipState) (cwd : Path) (fs : FS) (paths : List InputPath) :
    ClipState × Bool :=
  match validate_paths cwd fs paths with
  | none => (st, false)
  | some validated => (⟨validated, some OperationType.COPY⟩, true)

/-- Embedding of `FileOperations.cut` (lines 90-122): identical to
`copy` but staging the CUT intent. -/
def cut (st : ClipState) (cwd : Path) (fs : FS) (paths : List InputPath) :
    ClipState × Bool :=
  match validate_paths cwd fs paths with
  | none => (st, false)
  | some validated => (⟨validated, some OperationType.CUT⟩, true)

/-- Embedding of `FileOperations.clear_clipboard` (lines 318-321). -/
def clear_clipboard (_st : ClipState) : ClipState := ⟨[], none⟩

/-- Index of the last `'.'` in a list of characters, if any
(Python's `str.rfind('.')`). -/
def rfindDotAux : List Char → Nat → Option Nat → Option Nat
  | [], _, acc => acc
  | c :: rest, i, acc => rfindDotAux rest (i + 1) (if c = '.' then some i else acc)

/-- Index of the last `'.'` in a string, if any. -/
def rfindDot (s : String) : Option Nat := rfindDotAux s.data 0 none

/-- Embedding of pathlib's `stem`/`suffix` pair: the name is split at its
last dot provided that dot is neither the first nor the last character;
otherwise the suffix is empty.  Applied to every path, directory or not. -/
def splitStemSuffix (name : String) : String × String :=
  match rfindDot name with
  | some i =>
    if 0 < i ∧ i < name.length - 1 then
      (String.mk (name.data.take i), String.mk (name.data.drop i))
    else
      (name, "")
  | none => (name, "")

/-- The candidate name `f"{stem} ({counter}){suffix}"` tried by
`_get_unique_name` (line 274), joined under the parent directory. -/
def unique_name_candidate (parent : Path) (stem suffix : String) (counter : Nat) : Path :=
  parent ++ [stem ++ " (" ++ toString counter ++ ")" ++ suffix]

/-- The `while True` search of `_get_unique_name` (lines 272-278), with
fuel: one more attempt than the filesystem has entries always suffices,
so the fuel never runs out on the runs the theorems describe. -/
def get_unique_name_aux (fs : FS) (parent : Path) (stem suffix : String) :
    Nat → Nat → Path
  | 0, counter => unique_name_candidate parent stem suffix counter
  | Nat.succ fuel, counter =>
    let new_path := unique_name_candidate parent stem suffix counter
    if fs.existsPath new_path then
      get_unique_name_aux fs parent stem suffix fuel (counter + 1)
    else
      new_path

/-- Embedding of `FileOperations._get_unique_name` (lines 258-278):
split the base name into stem and suffix, then try counters 1, 2, …
until a name not present in the destination is found. -/
def get_unique_name (fs : FS) (path : Path) : Path :=
  let parent := path.dropLast
  let ss := splitStemSuffix (Path.name path)
  get_unique_name_aux fs parent ss.1 ss.2 (fs.entries.length + 1) 1

/-- The candidate `_get_unique_name` would build for `path` at a given
counter: its parent, stem and suffix, with the counter spliced in. -/
def candidate_for (path : Path) (counter : Nat) : Path :=
  unique_name_candidate path.dropLast (splitStemSuffix (Path.name path)).1
    (splitStemSuffix (Path.name path)).2 counter

/-- One event at the interactive conflict prompt: a line of input, a
KeyboardInterrupt, or any other exception raised while reading input. -/
inductive PromptEvent where
  | line (s : String)
  | interrupt
  | ioError (msg : String)
  deriving DecidableEq, Repr

/-- Embedding of `FileOperations._ask_conflict_resolution` (lines
280-316).  `Sum.inl code` is `sys.exit(code)` escaping the whole
process; `Sum.inr` carries the chosen action and the unconsumed input
events.  An exhausted event list stands for end-of-input, which raises
`EOFError` and is caught by the `except Exception` arm, returning SKIP. -/
def ask_conflict_resolution : List PromptEvent → Sum Nat (ConflictAction × List PromptEvent)
  | [] => Sum.inr (ConflictAction.SKIP, [])
  | PromptEvent.line s :: rest =>
    let choice := s.trim.toUpper
    if choice = "R" then Sum.inr (ConflictAction.REPLACE, rest)
    else if choice = "K" then Sum.inr (ConflictAction.KEEP_BOTH, rest)
    else if choice = "S" then Sum.inr (ConflictAction.SKIP, rest)
    else ask_conflict_resolution rest
  | PromptEvent.interrupt :: _ => Sum.inl 0
  | PromptEvent.ioError _ :: rest => Sum.inr (ConflictAction.SKIP, rest)

/-- Outcome the OS reports for one attempted transfer: success, or one
of the exception classes caught at the entry boundary (lines 194-199). -/
inductive TransferResult where
  | ok
  | permissionError
  | osError
  | otherError
  deriving DecidableEq, Repr

/-- Next transfer outcome from the oracle list; an exhausted list stands
for an OS that keeps succeeding. -/
def transferHead : List TransferResult → TransferResult × List TransferResult
  | [] => (TransferResult.ok, [])
  | t :: rest => (t, rest)

/-- What one entry of the paste loop contributed: `success_count += 1`,
a `continue` after a skip, or `failed_count += 1`. -/
inductive EntryOutcome where
  | success
  | skipped
  | failed
  deriving DecidableEq, Repr

/-- The transfer step of the paste loop (lines 184-199): consult the
oracle; on success apply `_copy_item` or `_move_item` to the filesystem,
on any caught exception leave it unchanged and record a failure. -/
def doTransfer (op : OperationType) (fs : FS) (events : List PromptEvent)
    (transfers : List TransferResult) (source_path dest_item_path : Path) :
    Sum (Nat × FS) (FS × List PromptEvent × List TransferResult × EntryOutcome) :=
  match transferHead transfers with
  | (TransferResult.ok, rest) =>
    let fs2 := match op with
      | OperationType.COPY => copy_item fs source_path dest_item_path
      | OperationType.CUT => move_item fs source_path dest_item_path
    Sum.inr (fs2, events, rest, EntryOutcome.success)
  | (_, rest) => Sum.inr (fs, events, rest, EntryOutcome.failed)

/-- The body of the paste loop for one clipboard entry (lines 160-199):
compute the naive target, resolve a conflict if the target exists
(caller-supplied default, else the interactive prompt), then skip,
replace-and-transfer, rename-and-transfer, or transfer directly.
`Sum.inl` is a `sys.exit` escaping from inside the prompt. -/
def processEntry (op : OperationType) (dest_path : Path)
    (default_conflict_action : Option ConflictAction) (fs : FS)
    (events : List PromptEvent) (transfers : List TransferResult)
    (source_path : Path) :
    Sum (Nat × FS) (FS × List PromptEvent × List TransferResult × EntryOutcome) :=
  let dest_item_path := dest_path ++ [Path.name source_path]
  if fs.existsPath dest_item_path then
    match (match default_conflict_action with
           | some a => Sum.inr (a, events)
           | none => ask_conflict_resolution events) with
    | Sum.inl code => Sum.inl (code, fs)
    | Sum.inr (action, events2) =>
      match action with
      | ConflictAction.SKIP => Sum.inr (fs, events2, transfers, EntryOutcome.skipped)
      | ConflictAction.REPLACE =>
        let fs2 := if fs.is_dir dest_item_path then fs.removeTree dest_item_path
          else fs.removeFile dest_item_path
        doTransfer op fs2 events2 transfers source_path dest_item_path
      | ConflictAction.KEEP_BOTH =>
        doTransfer op fs events2 transfers source_path (get_unique_name fs dest_item_path)
  else
    doTransfer op fs events transfers source_path dest_item_path

/-- The `for source_path in self.clipboard` loop of `paste` (lines
160-199), threading the filesystem, the prompt events, the transfer
oracle and the two counters. -/
def pasteLoop (op : OperationType) (dest_path : Path)
    (default_conflict_action : Option ConflictAction) :
    FS → List PromptEvent → List TransferResult → List Path → Nat → Nat →
    Sum (Nat × FS) (FS × Nat × Nat)
  | fs, _, _, [], s, f => Sum.inr (fs, s, f)
  | fs, events, transfers, source_path :: rest, s, f =>
    match processEntry op dest_path default_conflict_action fs events transfers source_path with
    | Sum.inl e => Sum.inl e
    | Sum.inr (fs2, events2, transfers2, EntryOutcome.success) =>
      pasteLoop op dest_path default_conflict_action fs2 events2 transfers2 rest (s + 1) f
    | Sum.inr (fs2, events2, transfers2, EntryOutcome.skipped) =>
      pasteLoop op dest_path default_conflict_action fs2 events2 transfers2 rest s f
    | Sum.inr (fs2, events2, transfers2, EntryOutcome.failed) =>
      pasteLoop op dest_path default_conflict_action fs2 events2 transfers2 rest s (f + 1)

/-- Result of a `paste` call: the process exited from inside a prompt
(`sys.exit`), one of the validation checks failed and `False` was
returned with nothing touched, or the loop completed with the final
clipboard state, filesystem, the two counters of the printed summary
and the returned boolean. -/
inductive PasteOutcome where
  | exited (code : Nat) (fs : FS)
  | validationFailed (st : ClipState) (fs : FS)
  | completed (st : ClipState) (fs : FS) (success_count failed_count : Nat) (retval : Bool)
  deriving DecidableEq, Repr

/-- Embedding of `FileOperations.paste` (lines 124-213): the four
validation checks in source order, the per-entry loop, the clear of the
clipboard when a CUT batch had zero failures, and the returned boolean
`success_count > 0`. -/
def paste (st : ClipState) (fs : FS) (destination : Path)
    (default_conflict_action : Option ConflictAction)
    (events : List PromptEvent) (transfers : List TransferResult) : PasteOutcome :=
  if st.clipboard.isEmpty then PasteOutcome.validationFailed st fs
  else
    match st.operation_type with
    | none => PasteOutcome.validationFailed st fs
    | some op =>
      if fs.existsPath destination = false then PasteOutcome.validationFailed st fs
      else if fs.is_dir destination = false then PasteOutcome.validationFailed st fs
      else
        match pasteLoop op destination default_conflict_action fs events transfers st.clipboard 0 0 with
        | Sum.inl (code, fs2) => PasteOutcome.exited code fs2
        | Sum.inr (fs2, success_count, failed_count) =>
          let st2 := if op = OperationType.CUT ∧ failed_count = 0 then ClipState.mk [] none else st
          PasteOutcome.completed st2 fs2 success_count failed_count (decide (0 < success_count))

/-- The clipboard invariant stated by the specification: the intent is
EMPTY (Python `None`) exactly when the staged path sequence is empty. -/
def clipboard_invariant (st : ClipState) : Prop :=
  st.operation_type = none ↔ st.clipboard = []

instance (st : ClipState) : Decidable (clipboard_invariant st) := by
  unfold clipboard_invariant
  infer_instance

/-! ### Helper lemmas about the staging validation loop -/

/-- Whenever the validation loop succeeds, the clipboard it produces is
the input list mapped to absolute form, in order, duplicates kept. -/
theorem validate_paths_eq_some (cwd : Path) (fs : FS) :
    ∀ (paths : List InputPath) (v : List Path),
      validate_paths cwd fs paths = some v → v = paths.map (absolute cwd)
  | [], v, h => by
    simp only [validate_paths, Option.some.injEq] at h
    simp [← h]
  | p :: rest, v, h => by
    unfold validate_paths at h
    split at h
    · cases hv : validate_paths cwd fs rest with
      | none => rw [hv] at h; simp at h
      | some w =>
        rw [hv] at h
        simp at h
        subst h
        rw [List.map_cons, validate_paths_eq_some cwd fs rest w hv]
    · simp at h

/-- When every input path exists, validation succeeds and returns the
absolute-resolved list. -/
theorem validate_paths_all_exist (cwd : Path) (fs : FS) :
    ∀ (paths : List InputPath),
      (∀ p ∈ paths, fs.existsPath (absolute cwd p) = true) →
      validate_paths cwd fs paths = some (paths.map (absolute cwd))
  | [], _ => rfl
  | p :: rest, h => by
    unfold validate_paths
    rw [if_pos (h p (List.mem_cons_self p rest)),
      validate_paths_all_exist cwd fs rest (fun q hq => h q (List.mem_cons_of_mem p hq))]
    rfl

/-- When some input path is missing, validation fails. -/
theorem validate_paths_missing (cwd : Path) (fs : FS) :
    ∀ (paths : List InputPath),
      (∃ p ∈ paths, fs.existsPath (absolute cwd p) = false) →
      validate_paths cwd fs paths = none
  | [], h => by simp at h
  | p :: rest, h => by
    unfold validate_paths
    by_cases hp : fs.existsPath (absolute cwd p) = true
    · rw [if_pos hp]
      obtain ⟨q, hq, hqm⟩ := h
      rcases List.mem_cons.mp hq with rfl | hq2
      · rw [hp] at hqm; cases hqm
      · rw [validate_paths_missing cwd fs rest ⟨q, hq2, hqm⟩]; rfl
    · rw [if_neg hp]

/-! ### Helper lemmas about `paste` and `_get_unique_name` -/

/-- A completed `paste` run determines everything from the loop: the
operation type came from the clipboard state, the filesystem and the
two counters come from the loop, the clipboard is cleared exactly when
the intent was CUT with zero failures, and the returned boolean is
`success_count > 0`. -/
theorem paste_completed_inv (st : ClipState) (fs : FS) (dest : Path)
    (d : Option ConflictAction) (ev : List PromptEvent) (tr : List TransferResult)
    (st2 : ClipState) (fs2 : FS) (s f : Nat) (rv : Bool)
    (h : paste st fs dest d ev tr = PasteOutcome.completed st2 fs2 s f rv) :
    ∃ op, st.operation_type = some op ∧
      pasteLoop op dest d fs ev tr st.clipboard 0 0 = Sum.inr (fs2, s, f) ∧
      st2 = (if op = OperationType.CUT ∧ f = 0 then ClipState.mk [] none else st) ∧
      rv = decide (0 < s) := by
  unfold paste at h
  split at h
  · cases h
  · split at h
    · cases h
    · rename_i op hop
      split at h
      · cases h
      · split at h
        · cases h
        · cases hl : pasteLoop op dest d fs ev tr st.clipboard 0 0 with
          | inl e =>
            obtain ⟨code, fsx⟩ := e
            rw [hl] at h
            simp at h
          | inr r =>
            obtain ⟨fsx, sx, fx⟩ := r
            rw [hl] at h
            dsimp only at h
            simp only [PasteOutcome.completed.injEq] at h
            obtain ⟨h1, h2, h3, h4, h5⟩ := h
            exact ⟨op, hop, by rw [hl, h2, h3, h4], by rw [← h1, h4], by rw [← h5, h3]⟩

/-- The `while True` search: if counter `c` is reachable within the
fuel, the candidate at `c` is free and every candidate from the
starting counter up to `c` is taken, the search returns the candidate
at `c`. -/
theorem get_unique_name_aux_spec (fs : FS) (parent : Path) (stem suffix : String) :
    ∀ (fuel counter c : Nat), counter ≤ c → c ≤ counter + fuel →
      fs.existsPath (unique_name_candidate parent stem suffix c) = false →
      (∀ j, counter ≤ j → j < c →
        fs.existsPath (unique_name_candidate parent stem suffix j) = true) →
      get_unique_name_aux fs parent stem suffix fuel counter =
        unique_name_candidate parent stem suffix c
  | 0, counter, c, h1, h2, _, _ => by
    have hc : c = counter := by omega
    rw [hc]
    rfl
  | Nat.succ fuel, counter, c, h1, h2, hfree, hblocked => by
    by_cases hc : counter = c
    · subst hc
      unfold get_unique_name_aux
      simp [hfree]
    · have hlt : counter < c := lt_of_le_of_ne h1 hc
      unfold get_unique_name_aux
      simp only [hblocked counter le_rfl hlt, if_true]
      exact get_unique_name_aux_spec fs parent stem suffix fuel (counter + 1) c hlt
        (by omega) hfree (fun j hj1 hj2 => hblocked j (by omega) hj2)

/-! ### Concrete fixtures used by witnesses and counterexamples -/

/-- Input path `/s/a` (absolute). -/
def ipA : InputPath := ⟨true, ["s", "a"]⟩

/-- Input path `/s/b` (absolute). -/
def ipB : InputPath := ⟨true, ["s", "b"]⟩

/-- Input path `/nope` (absolute), existing nowhere. -/
def ipMissing : InputPath := ⟨true, ["nope"]⟩

/-- A filesystem with destination directory `/d` already holding `a`,
and source files `/s/a` and `/s/b`. -/
def fsDemo : FS := ⟨[(["d"], true), (["d", "a"], false), (["s", "a"], false), (["s", "b"], false)]⟩

/-- A filesystem with destination directory `/d` and source file `/s/a`. -/
def fsCut : FS := ⟨[(["d"], true), (["s", "a"], false)]⟩

/-- Clipboard holding `/s/a` and `/s/b` under COPY intent. -/
def stTwoCopy : ClipState := ⟨[["s", "a"], ["s", "b"]], some OperationType.COPY⟩

/-- Clipboard holding only `/s/b` under COPY intent. -/
def stOneCopyB : ClipState := ⟨[["s", "b"]], some OperationType.COPY⟩

/-- Clipboard holding only `/s/a` under COPY intent. -/
def stOneCopyA : ClipState := ⟨[["s", "a"]], some OperationType.COPY⟩

/-- Clipboard holding `/s/a` under CUT intent. -/
def stCut : ClipState := ⟨[["s", "a"]], some OperationType.CUT⟩

/-! ### Claims -/

/-- Claim C1: for every paste call that passes validation and runs to
completion, if the intent was CUT and zero entries failed then the
clipboard is cleared and the intent reset to EMPTY (`None`); if the
intent was CUT and at least one entry failed, clipboard contents and
intent are unchanged; if the intent was COPY they are unchanged
regardless of per-entry outcomes (`paste`, lines 201-204). -/
theorem paste_cut_clear_postcondition (st : ClipState) (fs : FS) (dest : Path)
    (d : Option ConflictAction) (ev : List PromptEvent) (tr : List TransferResult)
    (st2 : ClipState) (fs2 : FS) (s f : Nat) (rv : Bool)
    (h : paste st fs dest d ev tr = PasteOutcome.completed st2 fs2 s f rv) :
    (st.operation_type = some OperationType.CUT ∧ f = 0 → st2 = ClipState.mk [] none) ∧
    (st.operation_type = some OperationType.CUT ∧ f ≠ 0 → st2 = st) ∧
    (st.operation_type = some OperationType.COPY → st2 = st) := by
  obtain ⟨op, hop, hloop, hst2, hrv⟩ := paste_completed_inv st fs dest d ev tr st2 fs2 s f rv h
  refine ⟨?_, ?_, ?_⟩
  · rintro ⟨hcut, hf⟩
    have hopc : op = OperationType.CUT := Option.some.inj (hop.symm.trans hcut)
    rw [hst2, if_pos ⟨hopc, hf⟩]
  · rintro ⟨hcut, hf⟩
    rw [hst2, if_neg (fun hand => hf hand.2)]
  · intro hcopy
    have hopc : op = OperationType.COPY := Option.some.inj (hop.symm.trans hcopy)
    have hnc : ¬(op = OperationType.CUT ∧ f = 0) := by
      rintro ⟨h1, -⟩
      rw [hopc] at h1
      cases h1
    rw [hst2, if_neg hnc]

/-- Witness for `paste_cut_clear_postcondition`: cutting `/s/a` and
pasting it into `/d` completes with zero failures and the clipboard is
cleared. -/
theorem paste_cut_clear_postcondition_witness :
    (stCut.operation_type = some OperationType.CUT ∧ (0 : Nat) = 0 →
      ClipState.mk [] none = ClipState.mk [] none) ∧
    (stCut.operation_type = some OperationType.CUT ∧ (0 : Nat) ≠ 0 →
      ClipState.mk [] none = stCut) ∧
    (stCut.operation_type = some OperationType.COPY → ClipState.mk [] none = stCut) :=
  paste_cut_clear_postcondition stCut fsCut ["d"] none [] [] (ClipState.mk [] none)
    ⟨[(["d"], true), (["d", "a"], false)]⟩ 1 0 true (by decide)

/-- Claim C3: for every paste call that passes validation and runs to
completion, the returned boolean is true iff at least one entry
succeeded; in particular a batch with zero successful transfers (for
example one in which every entry was skipped) returns failure
(`paste`, line 209). -/
theorem paste_retval_iff_success (st : ClipState) (fs : FS) (dest : Path)
    (d : Option ConflictAction) (ev : List PromptEvent) (tr : List TransferResult)
    (st2 : ClipState) (fs2 : FS) (s f : Nat) (rv : Bool)
    (h : paste st fs dest d ev tr = PasteOutcome.completed st2 fs2 s f rv) :
    (rv = true ↔ 0 < s) ∧ (s = 0 → rv = false) := by
  obtain ⟨op, hop, hloop, hst2, hrv⟩ := paste_completed_inv st fs dest d ev tr st2 fs2 s f rv h
  constructor
  · rw [hrv]
    exact decide_eq_true_iff
  · intro h0
    rw [hrv, h0]
    rfl

/-- Witness for `paste_retval_iff_success`: a COPY paste of `/s/a` into
`/d` with the SKIP default, where the only entry conflicts and is
skipped, completes with zero successes and returns failure. -/
theorem paste_retval_iff_success_witness :
    ((false = true ↔ (0 : Nat) < 0) ∧ ((0 : Nat) = 0 → false = false)) :=
  paste_retval_iff_success stOneCopyA fsDemo ["d"] (some ConflictAction.SKIP) [] []
    stOneCopyA fsDemo 0 0 false (by decide)

/-- Claim C7: staging (copy or cut) a list containing a non-existent
path fails and leaves the clipboard state exactly as it was — the
all-or-nothing validation of lines 66-74 / 100-108. -/
theorem staging_missing_path_no_mutation (st : ClipState) (cwd : Path) (fs : FS)
    (paths : List InputPath)
    (h : ∃ p ∈ paths, fs.existsPath (absolute cwd p) = false) :
    copy st cwd fs paths = (st, false) ∧ cut st cwd fs paths = (st, false) := by
  have hv := validate_paths_missing cwd fs paths h
  refine ⟨?_, ?_⟩
  · unfold copy
    rw [hv]
  · unfold cut
    rw [hv]

/-- Witness for `staging_missing_path_no_mutation`: staging `/s/a`
together with the missing `/nope` fails and keeps the prior clipboard. -/
theorem staging_missing_path_no_mutation_witness :
    copy stCut ["c"] fsCut [ipA, ipMissing] = (stCut, false) ∧
    cut stCut ["c"] fsCut [ipA, ipMissing] = (stCut, false) :=
  staging_missing_path_no_mutation stCut ["c"] fsCut [ipA, ipMissing] (by decide)

/-- Claim C9: staging a non-empty list of existing paths stores exactly
those paths, absolute-resolved, in the original order with duplicates
retained, under the intent matching the operation used (`copy` lines
66-84, `cut` lines 100-118); inspecting the clipboard afterwards is
reading that state. -/
theorem staging_then_peek (st : ClipState) (cwd : Path) (fs : FS) (paths : List InputPath)
    (_hne : paths ≠ [])
    (hex : ∀ p ∈ paths, fs.existsPath (absolute cwd p) = true) :
    copy st cwd fs paths = (⟨paths.map (absolute cwd), some OperationType.COPY⟩, true) ∧
    cut st cwd fs paths = (⟨paths.map (absolute cwd), some OperationType.CUT⟩, true) := by
  have hv := validate_paths_all_exist cwd fs paths hex
  refine ⟨?_, ?_⟩
  · unfold copy
    rw [hv]
  · unfold cut
    rw [hv]

/-- Witness for `staging_then_peek`: staging `/s/a`, `/s/b`, `/s/a`
(duplicate kept) yields exactly that clipboard under either intent. -/
theorem staging_then_peek_witness :
    copy init_state ["c"] fsDemo [ipA, ipB, ipA] =
      (⟨[["s", "a"], ["s", "b"], ["s", "a"]], some OperationType.COPY⟩, true) ∧
    cut init_state ["c"] fsDemo [ipA, ipB, ipA] =
      (⟨[["s", "a"], ["s", "b"], ["s", "a"]], some OperationType.CUT⟩, true) :=
  staging_then_peek init_state ["c"] fsDemo [ipA, ipB, ipA] (by decide) (by decide)

/-- Claim C6 counterexample: staging one item and staging two items both
return the very same value `true`, although the staged counts are 1 and
2 — the return value of `copy`/`cut` is the boolean of lines 84/118,
not the count of items staged. -/
theorem staging_return_value_counterexample :
    (copy init_state ["c"] fsDemo [ipA]).2 = (copy init_state ["c"] fsDemo [ipA, ipB]).2 ∧
    (copy init_state ["c"] fsDemo [ipA]).1.clipboard.length = 1 ∧
    (copy init_state ["c"] fsDemo [ipA, ipB]).1.clipboard.length = 2 := by
  decide

/-- Claim C6 (amended): a successful staging call returns the boolean
`True` — not the count — while the number of items actually staged,
the new clipboard's length, equals the length of the input list. -/
theorem staging_returns_true_and_count (st : ClipState) (cwd : Path) (fs : FS)
    (paths : List InputPath)
    (hex : ∀ p ∈ paths, fs.existsPath (absolute cwd p) = true) :
    (copy st cwd fs paths).2 = true ∧
    (copy st cwd fs paths).1.clipboard.length = paths.length ∧
    (cut st cwd fs paths).2 = true ∧
    (cut st cwd fs paths).1.clipboard.length = paths.length := by
  have hv := validate_paths_all_exist cwd fs paths hex
  unfold copy cut
  rw [hv]
  simp

/-- Witness for `staging_returns_true_and_count` at the two-item list. -/
theorem staging_returns_true_and_count_witness :
    (copy init_state ["c"] fsDemo [ipA, ipB]).2 = true ∧
    (copy init_state ["c"] fsDemo [ipA, ipB]).1.clipboard.length = [ipA, ipB].length ∧
    (cut init_state ["c"] fsDemo [ipA, ipB]).2 = true ∧
    (cut init_state ["c"] fsDemo [ipA, ipB]).1.clipboard.length = [ipA, ipB].length :=
  staging_returns_true_and_count init_state ["c"] fsDemo [ipA, ipB] (by decide)

/-- Claim C8 counterexample: calling `copy` with an empty path list
validates vacuously and sets the COPY intent over an empty clipboard
(lines 67-78), breaking the EMPTY-iff-empty invariant. -/
theorem empty_staging_invariant_counterexample :
    copy init_state ["c"] ⟨[]⟩ [] = (⟨[], some OperationType.COPY⟩, true) ∧
    ¬clipboard_invariant ⟨[], some OperationType.COPY⟩ := by
  exact ⟨rfl, by decide⟩

/-- Claim C8 (amended): the EMPTY-iff-empty clipboard invariant holds in
the initial state and is preserved by `clear_clipboard`, by every
completed `paste`, and by `copy`/`cut` whenever the staged list is
non-empty (staging an empty list is the one violation). -/
theorem clipboard_invariant_preserved (st stp : ClipState) (cwd : Path) (fs fsp : FS)
    (paths : List InputPath) (dest : Path) (d : Option ConflictAction)
    (ev : List PromptEvent) (tr : List TransferResult)
    (st2 : ClipState) (fs2 : FS) (s f : Nat) (rv : Bool)
    (hne : paths ≠ []) (hinv : clipboard_invariant st) (hinvp : clipboard_invariant stp)
    (hp : paste stp fsp dest d ev tr = PasteOutcome.completed st2 fs2 s f rv) :
    clipboard_invariant init_state ∧
    clipboard_invariant (copy st cwd fs paths).1 ∧
    clipboard_invariant (cut st cwd fs paths).1 ∧
    clipboard_invariant (clear_clipboard st) ∧
    clipboard_invariant st2 := by
  refine ⟨by decide, ?_, ?_, by simp [clear_clipboard, clipboard_invariant], ?_⟩
  · unfold copy
    cases hv : validate_paths cwd fs paths with
    | none => exact hinv
    | some w =>
      have hw := validate_paths_eq_some cwd fs paths w hv
      simp only [clipboard_invariant]
      rw [hw]
      simp [hne]
  · unfold cut
    cases hv : validate_paths cwd fs paths with
    | none => exact hinv
    | some w =>
      have hw := validate_paths_eq_some cwd fs paths w hv
      simp only [clipboard_invariant]
      rw [hw]
      simp [hne]
  · obtain ⟨op, hop, hloop, hst2, hrv⟩ :=
      paste_completed_inv stp fsp dest d ev tr st2 fs2 s f rv hp
    rw [hst2]
    split
    · decide
    · exact hinvp

/-- Witness for `clipboard_invariant_preserved` at the one-file CUT run. -/
theorem clipboard_invariant_preserved_witness :
    clipboard_invariant init_state ∧
    clipboard_invariant (copy stCut ["c"] fsCut [ipA]).1 ∧
    clipboard_invariant (cut stCut ["c"] fsCut [ipA]).1 ∧
    clipboard_invariant (clear_clipboard stCut) ∧
    clipboard_invariant (ClipState.mk [] none) :=
  clipboard_invariant_preserved stCut stCut ["c"] fsCut fsCut [ipA] ["d"] none [] []
    (ClipState.mk [] none) ⟨[(["d"], true), (["d", "a"], false)]⟩ 1 0 true
    (by decide) (by decide) (by decide) (by decide)

/-- The filesystem `fsDemo` after `/s/b` has been copied to `/d/b`. -/
def fsDemoB : FS :=
  ⟨[(["d"], true), (["d", "a"], false), (["s", "a"], false), (["s", "b"], false),
    (["d", "b"], false)]⟩

/-- Claim C2 counterexample: two paste batches with different numbers of
skipped entries — the first skips `/s/a` and transfers `/s/b`, the
second only transfers `/s/b` — produce identical caller-visible
summaries (1 succeeded, 0 failed, returned `true`): the summary built
at lines 156-158 and 207-209 carries no skipped count at all, so it
does not contain three counts, and a skipped entry in particular does
not increment any skipped count. -/
theorem paste_summary_counterexample :
    paste stTwoCopy fsDemo ["d"] (some ConflictAction.SKIP) [] [] =
      PasteOutcome.completed stTwoCopy fsDemoB 1 0 true ∧
    paste stOneCopyB fsDemo ["d"] (some ConflictAction.SKIP) [] [] =
      PasteOutcome.completed stOneCopyB fsDemoB 1 0 true ∧
    processEntry OperationType.COPY ["d"] (some ConflictAction.SKIP) fsDemo [] [] ["s", "a"] =
      Sum.inr (fsDemo, [], [], EntryOutcome.skipped) := by
  decide

/-- Claim C2 (amended): the batch summary consists of two counts —
succeeded and failed — plus the returned boolean; an entry whose
conflict resolution is SKIP increments neither counter (so it never
counts as failed) and causes no filesystem mutation for that entry:
the loop continues over the rest of the batch with the filesystem and
both counters unchanged. -/
theorem paste_skip_no_mutation (op : OperationType) (dest : Path) (fs : FS)
    (ev : List PromptEvent) (tr : List TransferResult) (p : Path)
    (hconf : fs.existsPath (dest ++ [Path.name p]) = true) :
    processEntry op dest (some ConflictAction.SKIP) fs ev tr p =
      Sum.inr (fs, ev, tr, EntryOutcome.skipped) ∧
    ∀ (rest : List Path) (s f : Nat),
      pasteLoop op dest (some ConflictAction.SKIP) fs ev tr (p :: rest) s f =
      pasteLoop op dest (some ConflictAction.SKIP) fs ev tr rest s f := by
  have h1 : processEntry op dest (some ConflictAction.SKIP) fs ev tr p =
      Sum.inr (fs, ev, tr, EntryOutcome.skipped) := by
    unfold processEntry
    simp [hconf]
  refine ⟨h1, fun rest s f => ?_⟩
  simp only [pasteLoop, h1]

/-- Witness for `paste_skip_no_mutation`: the conflicting entry `/s/a`
of `fsDemo` under the SKIP default. -/
theorem paste_skip_no_mutation_witness :
    processEntry OperationType.COPY ["d"] (some ConflictAction.SKIP) fsDemo [] [] ["s", "a"] =
      Sum.inr (fsDemo, [], [], EntryOutcome.skipped) ∧
    ∀ (rest : List Path) (s f : Nat),
      pasteLoop OperationType.COPY ["d"] (some ConflictAction.SKIP) fsDemo [] []
        (["s", "a"] :: rest) s f =
      pasteLoop OperationType.COPY ["d"] (some ConflictAction.SKIP) fsDemo [] [] rest s f :=
  paste_skip_no_mutation OperationType.COPY ["d"] fsDemo [] [] ["s", "a"] (by decide)

/-- Claim C4 counterexample: an interrupt at the conflict prompt makes
the process exit with code 0 — the `sys.exit(0)` at line 313 — which is
the CLI's success code, not a distinct 130-style code (the
`sys.exit(130)` handler at lines 427-429 is unreachable from the
prompt, whose own handler catches the KeyboardInterrupt first).  The
remaining batch is aborted: the run ends with the filesystem untouched
and the second entry `/s/b` never processed. -/
theorem prompt_interrupt_exit_counterexample :
    paste stTwoCopy fsDemo ["d"] none [PromptEvent.interrupt] [] =
      PasteOutcome.exited 0 fsDemo := by
  decide

/-- Claim C4 (amended): an interrupt during an interactive conflict
prompt immediately aborts the entire remaining paste batch — the run
ends at once with no further filesystem changes — but the process exit
code is 0, the same code as success, not a distinct 130-style code. -/
theorem prompt_interrupt_aborts_batch (st : ClipState) (fs : FS) (dest : Path)
    (tr : List TransferResult) (op : OperationType) (p : Path) (rest : List Path)
    (ev : List PromptEvent)
    (hclip : st.clipboard = p :: rest)
    (hop : st.operation_type = some op)
    (hdest : fs.existsPath dest = true)
    (hdir : fs.is_dir dest = true)
    (hconf : fs.existsPath (dest ++ [Path.name p]) = true) :
    paste st fs dest none (PromptEvent.interrupt :: ev) tr = PasteOutcome.exited 0 fs := by
  unfold paste
  rw [hclip, hop]
  simp [hdest, hdir, pasteLoop, processEntry, ask_conflict_resolution, hconf]

/-- Witness for `prompt_interrupt_aborts_batch`: a one-entry COPY batch
whose entry conflicts, interrupted at the prompt. -/
theorem prompt_interrupt_aborts_batch_witness :
    paste stOneCopyA fsDemo ["d"] none (PromptEvent.interrupt :: [PromptEvent.line "R"]) [] =
      PasteOutcome.exited 0 fsDemo :=
  prompt_interrupt_aborts_batch stOneCopyA fsDemo ["d"] [] OperationType.COPY ["s", "a"] []
    [PromptEvent.line "R"] rfl rfl (by decide) (by decide) (by decide)

/-- Claim C5 counterexample: for a directory the code still splits the
base name at its last dot (pathlib `stem`/`suffix`, used at lines
268-270 with no directory check), contrary to the claim's full-name
scheme for directories — with a directory `archive.old` present at the
destination the code produces `archive (1).old`, not `archive.old (1)`. -/
theorem unique_name_directory_counterexample :
    FS.is_dir ⟨[(["d", "archive.old"], true)]⟩ ["d", "archive.old"] = true ∧
    get_unique_name ⟨[(["d", "archive.old"], true)]⟩ ["d", "archive.old"] =
      ["d", "archive (1).old"] ∧
    (["d", "archive (1).old"] : Path) ≠ ["d", "archive.old (1)"] := by
  refine ⟨rfl, rfl, by decide⟩

/-- Claim C5 (amended): `_get_unique_name` returns the first candidate
`stem (counter)suffix` — counter starting at 1 and incrementing — that
does not exist at the destination, where stem and suffix split the base
name at its last dot for directories exactly as for files (there is no
separate full-name scheme for directories); with `report.txt` and
`report (1).txt` present the result is `report (2).txt`. -/
theorem get_unique_name_first_free (fs : FS) (path : Path) (c : Nat)
    (h1 : 1 ≤ c) (h2 : c ≤ fs.entries.length + 1)
    (hfree : fs.existsPath (candidate_for path c) = false)
    (hblocked : ∀ j, 1 ≤ j → j < c → fs.existsPath (candidate_for path j) = true) :
    get_unique_name fs path = candidate_for path c := by
  unfold get_unique_name
  exact get_unique_name_aux_spec fs path.dropLast (splitStemSuffix (Path.name path)).1
    (splitStemSuffix (Path.name path)).2 (fs.entries.length + 1) 1 c h1 (by omega) hfree hblocked

/-- A destination `/d` already holding `report.txt` and `report (1).txt`. -/
def fsReport : FS :=
  ⟨[(["d"], true), (["d", "report.txt"], false), (["d", "report (1).txt"], false)]⟩

/-- Witness for `get_unique_name_first_free`: with `report.txt` and
`report (1).txt` present, counter 2 is the first free one and the
result is `report (2).txt`. -/
theorem get_unique_name_first_free_witness :
    get_unique_name fsReport ["d", "report.txt"] = candidate_for ["d", "report.txt"] 2 ∧
    candidate_for ["d", "report.txt"] 2 = ["d", "report (2).txt"] :=
  ⟨get_unique_name_first_free fsReport ["d", "report.txt"] 2 (by decide) (by decide)
    (by decide)
    (fun j hj1 hj2 => by
      have hj : j = 1 := by omega
      subst hj
      decide),
   rfl⟩

/-- Claim C10: a non-interrupt exception while reading the prompt's
input (for example end-of-input on stdin) makes
`_ask_conflict_resolution` return SKIP at once instead of re-prompting
(lines 314-316); the entry is then recorded as skipped and the loop
continues with the rest of the batch. -/
theorem prompt_error_returns_skip (msg : String) (rest : List PromptEvent)
    (op : OperationType) (dest : Path) (fs : FS) (tr : List TransferResult) (p : Path)
    (hconf : fs.existsPath (dest ++ [Path.name p]) = true) :
    ask_conflict_resolution (PromptEvent.ioError msg :: rest) =
      Sum.inr (ConflictAction.SKIP, rest) ∧
    processEntry op dest none fs (PromptEvent.ioError msg :: rest) tr p =
      Sum.inr (fs, rest, tr, EntryOutcome.skipped) ∧
    ∀ (batch : List Path) (s f : Nat),
      pasteLoop op dest none fs (PromptEvent.ioError msg :: rest) tr (p :: batch) s f =
      pasteLoop op dest none fs rest tr batch s f := by
  have h0 : ask_conflict_resolution (PromptEvent.ioError msg :: rest) =
      Sum.inr (ConflictAction.SKIP, rest) := rfl
  have h1 : processEntry op dest none fs (PromptEvent.ioError msg :: rest) tr p =
      Sum.inr (fs, rest, tr, EntryOutcome.skipped) := by
    unfold processEntry
    simp [hconf, h0]
  refine ⟨h0, h1, fun batch s f => ?_⟩
  simp only [pasteLoop, h1]

/-- Witness for `prompt_error_returns_skip`: an EOF-style error at the
prompt for the conflicting entry `/s/a`. -/
theorem prompt_error_returns_skip_witness :
    ask_conflict_resolution (PromptEvent.ioError "eof" :: []) =
      Sum.inr (ConflictAction.SKIP, []) ∧
    processEntry OperationType.COPY ["d"] none fsDemo (PromptEvent.ioError "eof" :: []) []
      ["s", "a"] = Sum.inr (fsDemo, [], [], EntryOutcome.skipped) ∧
    ∀ (batch : List Path) (s f : Nat),
      pasteLoop OperationType.COPY ["d"] none fsDemo (PromptEvent.ioError "eof" :: []) []
        (["s", "a"] :: batch) s f =
      pasteLoop OperationType.COPY ["d"] none fsDemo [] [] batch s f :=
  prompt_error_returns_skip "eof" [] OperationType.COPY ["d"] fsDemo [] ["s", "a"] (by decide)

end FileOps
